import Mathlib

/-!
Shallow embedding of the PythonMastery demo scripts covered by the
specification: command_pattern_demo.py (Light, Command, LightOnCommand,
LightOffCommand, MacroCommand, SimpleRemoteControl),
chain_of_responsibility_demo.py (SupportHandler and its four concrete
subclasses), and singleton_pattern_demo.py (SingletonMeta, Logger).
Mutable Python objects become explicit state passing; the print calls of
the receivers and the invoker become an event trace.
-/

/-- Observable output events emitted by the demo objects via print. -/
inductive Event where
  | turnedOn (name : String)
  | turnedOff (name : String)
  | executingMacro
  | undoingMacro
  | undoing (cls : String)
  | nothingToUndo
  deriving DecidableEq, Repr

/-- The Receiver class Light from command_pattern_demo.py: a name and the
mutable flag is_on (initialised to false by the constructor). -/
structure Light where
  name : String
  is_on : Bool
  deriving DecidableEq, Repr

/-- Light.turn_on: sets is_on to true and prints the ON message. -/
def Light.turn_on (l : Light) : Light × Event :=
  ({ l with is_on := true }, Event.turnedOn l.name)

/-- Light.turn_off: sets is_on to false and prints the OFF message. -/
def Light.turn_off (l : Light) : Light × Event :=
  ({ l with is_on := false }, Event.turnedOff l.name)

/-- The collection of Light objects of a program run; a command refers to
its light by index, modelling the Python object reference held in
self.light. -/
abbrev Store := List Light

/-- Apply a receiver operation to the light at index i, collecting the
event it prints. An index with no light leaves the store unchanged. -/
def applyAt : Store → Nat → (Light → Light × Event) → Store × List Event
  | [], _, _ => ([], [])
  | l :: ls, 0, f => ((f l).1 :: ls, [(f l).2])
  | l :: ls, i + 1, f => (l :: (applyAt ls i f).1, (applyAt ls i f).2)

/-- Read the is_on flag of the light at index i. -/
def getIsOn : Store → Nat → Option Bool
  | [], _ => none
  | l :: _, 0 => some l.is_on
  | _ :: ls, i + 1 => getIsOn ls i

/-- The concrete Command classes of command_pattern_demo.py:
LightOnCommand and LightOffCommand hold a reference to their Light,
MacroCommand holds the list of its member commands. -/
inductive Command where
  | lightOnCommand (light : Nat)
  | lightOffCommand (light : Nat)
  | macroCommand (commands : List Command)

/-- The Python class name of a command, as printed by press_undo. -/
def Command.className : Command → String
  | .lightOnCommand _ => "LightOnCommand"
  | .lightOffCommand _ => "LightOffCommand"
  | .macroCommand _ => "MacroCommand"

mutual

/-- Command.execute: LightOnCommand calls light.turn_on, LightOffCommand
calls light.turn_off, MacroCommand prints its banner and executes its
member commands in declared list order. -/
def Command.execute : Command → Store → Store × List Event
  | .lightOnCommand i, s => applyAt s i Light.turn_on
  | .lightOffCommand i, s => applyAt s i Light.turn_off
  | .macroCommand cs, s =>
      ((execList cs s).1, Event.executingMacro :: (execList cs s).2)

/-- The for loop of MacroCommand.execute: run each command in order,
threading the store and concatenating the printed events. -/
def execList : List Command → Store → Store × List Event
  | [], s => (s, [])
  | c :: cs, s =>
      ((execList cs (Command.execute c s).1).1,
       (Command.execute c s).2 ++ (execList cs (Command.execute c s).1).2)

end

mutual

/-- Command.undo: LightOnCommand calls light.turn_off, LightOffCommand
calls light.turn_on, MacroCommand prints its banner and undoes its member
commands over reversed(self.commands). -/
def Command.undo : Command → Store → Store × List Event
  | .lightOnCommand i, s => applyAt s i Light.turn_off
  | .lightOffCommand i, s => applyAt s i Light.turn_on
  | .macroCommand cs, s =>
      ((undoRevList cs s).1, Event.undoingMacro :: (undoRevList cs s).2)

/-- The for loop of MacroCommand.undo over reversed(self.commands): undo
the last command first, then the earlier ones. -/
def undoRevList : List Command → Store → Store × List Event
  | [], s => (s, [])
  | c :: cs, s =>
      ((Command.undo c (undoRevList cs s).1).1,
       (undoRevList cs s).2 ++ (Command.undo c (undoRevList cs s).1).2)

end

/-- The Invoker class SimpleRemoteControl: its only attribute is the
history list, initialised empty. -/
structure SimpleRemoteControl where
  history : List Command

/-- SimpleRemoteControl.press_button: execute the command and append it to
the history list. -/
def SimpleRemoteControl.press_button (r : SimpleRemoteControl) (c : Command)
    (s : Store) : SimpleRemoteControl × Store × List Event :=
  ({ history := r.history ++ [c] }, (Command.execute c s).1, (Command.execute c s).2)

/-- SimpleRemoteControl.press_undo: if the history is non-empty, pop its
last command, print the Undoing message and run the undo of the command;
otherwise print Nothing to undo and change nothing. -/
def SimpleRemoteControl.press_undo (r : SimpleRemoteControl) (s : Store) :
    SimpleRemoteControl × Store × List Event :=
  match r.history.getLast? with
  | some c =>
      ({ history := r.history.dropLast }, (Command.undo c s).1,
       Event.undoing (Command.className c) :: (Command.undo c s).2)
  | none => (r, s, [Event.nothingToUndo])

/-- Press the button once for each command of a list, in order,
threading the invoker and the store. -/
def pressButtons : SimpleRemoteControl → List Command → Store →
    SimpleRemoteControl × Store
  | r, [], s => (r, s)
  | r, c :: cs, s =>
      pressButtons (r.press_button c s).1 cs (r.press_button c s).2.1

/-- Press undo n times, threading the invoker and the store. -/
def pressUndoN : Nat → SimpleRemoteControl → Store →
    SimpleRemoteControl × Store
  | 0, r, s => (r, s)
  | n + 1, r, s => pressUndoN n (r.press_undo s).1 (r.press_undo s).2.1

/-- Run a per-command operation sequentially over a list of commands in
list order, threading the store and concatenating the event traces. -/
def runSeq (f : Command → Store → Store × List Event) :
    List Command → Store → Store × List Event
  | [], s => (s, [])
  | c :: cs, s =>
      ((runSeq f cs (f c s).1).1, (f c s).2 ++ (runSeq f cs (f c s).1).2)

theorem runSeq_append (f : Command → Store → Store × List Event)
    (l₁ l₂ : List Command) (s : Store) :
    runSeq f (l₁ ++ l₂) s =
      ((runSeq f l₂ (runSeq f l₁ s).1).1,
       (runSeq f l₁ s).2 ++ (runSeq f l₂ (runSeq f l₁ s).1).2) := by
  induction l₁ generalizing s with
  | nil => simp [runSeq]
  | cons c cs ih => simp [runSeq, ih]

theorem execList_eq_runSeq (cs : List Command) (s : Store) :
    execList cs s = runSeq Command.execute cs s := by
  induction cs generalizing s with
  | nil => rfl
  | cons c cs ih => simp [execList, runSeq, ih]

theorem undoRevList_eq_runSeq (cs : List Command) (s : Store) :
    undoRevList cs s = runSeq Command.undo cs.reverse s := by
  induction cs generalizing s with
  | nil => rfl
  | cons c cs ih => simp [undoRevList, runSeq_append, runSeq, ih]

/-- The light index and value a concrete (non-macro) command assigns on
execute; none for MacroCommand. -/
def Command.target? : Command → Option (Nat × Bool)
  | .lightOnCommand i => some (i, true)
  | .lightOffCommand i => some (i, false)
  | .macroCommand _ => none

/-- A run of concrete commands is effectful from store s when every
command, at the moment it executes, finds its light present and in the
state opposite to the value the command assigns, so that each execute
call really changes the store. -/
def effectful : Store → List Command → Bool
  | _, [] => true
  | s, c :: cs =>
    match Command.target? c with
    | none => false
    | some (i, b) =>
        decide (getIsOn s i = some (!b)) && effectful (Command.execute c s).1 cs

theorem applyAt_restore_on (s : Store) (i : Nat)
    (h : getIsOn s i = some false) :
    (applyAt (applyAt s i Light.turn_on).1 i Light.turn_off).1 = s := by
  induction s generalizing i with
  | nil => simp [getIsOn] at h
  | cons l ls ih =>
    cases i with
    | zero =>
      simp [getIsOn] at h
      cases l with
      | mk name o => simp_all [applyAt, Light.turn_on, Light.turn_off]
    | succ i =>
      simp [getIsOn] at h
      simp [applyAt, Light.turn_on, Light.turn_off, ih i h]

theorem applyAt_restore_off (s : Store) (i : Nat)
    (h : getIsOn s i = some true) :
    (applyAt (applyAt s i Light.turn_off).1 i Light.turn_on).1 = s := by
  induction s generalizing i with
  | nil => simp [getIsOn] at h
  | cons l ls ih =>
    cases i with
    | zero =>
      simp [getIsOn] at h
      cases l with
      | mk name o => simp_all [applyAt, Light.turn_on, Light.turn_off]
    | succ i =>
      simp [getIsOn] at h
      simp [applyAt, Light.turn_on, Light.turn_off, ih i h]

theorem target_undo_execute (c : Command) (i : Nat) (b : Bool) (s : Store)
    (ht : Command.target? c = some (i, b)) (h : getIsOn s i = some (!b)) :
    (Command.undo c (Command.execute c s).1).1 = s := by
  cases c with
  | lightOnCommand j =>
    simp [Command.target?] at ht
    obtain ⟨rfl, rfl⟩ := ht
    simp only [Command.execute, Command.undo]
    exact applyAt_restore_on s j (by simpa using h)
  | lightOffCommand j =>
    simp [Command.target?] at ht
    obtain ⟨rfl, rfl⟩ := ht
    simp only [Command.execute, Command.undo]
    exact applyAt_restore_off s j (by simpa using h)
  | macroCommand cs => simp [Command.target?] at ht

theorem pressUndoN_succ_last (n : Nat) (r : SimpleRemoteControl) (s : Store) :
    pressUndoN (n + 1) r s =
      (((pressUndoN n r s).1.press_undo (pressUndoN n r s).2).1,
       ((pressUndoN n r s).1.press_undo (pressUndoN n r s).2).2.1) := by
  induction n generalizing r s with
  | zero => simp [pressUndoN]
  | succ n ih =>
    have step := ih (r.press_undo s).1 (r.press_undo s).2.1
    simp only [pressUndoN] at step ⊢
    exact step

theorem undoRevList_execList (cs : List Command) (s : Store)
    (h : effectful s cs = true) :
    (undoRevList cs (execList cs s).1).1 = s := by
  induction cs generalizing s with
  | nil => simp [execList, undoRevList]
  | cons c cs ih =>
    cases hc : Command.target? c with
    | none => simp [effectful, hc] at h
    | some ib =>
      obtain ⟨i, b⟩ := ib
      simp only [effectful, hc, Bool.and_eq_true, decide_eq_true_eq] at h
      obtain ⟨h1, h2⟩ := h
      simp only [execList, undoRevList]
      rw [ih _ h2]
      exact target_undo_execute c i b s hc h1

/-- Claim C1 fails as stated: with one light that is initially off,
executing the single command LightOffCommand through press_button and
then pressing undo once turns the light on, which is not its state before
the first execution (undo is an absolute assignment, not a restoration). -/
theorem undo_roundtrip_counterexample :
    (pressUndoN 1
      (pressButtons ⟨[]⟩ [Command.lightOffCommand 0] [⟨"Living Room", false⟩]).1
      (pressButtons ⟨[]⟩ [Command.lightOffCommand 0] [⟨"Living Room", false⟩]).2).2
      ≠ [⟨"Living Room", false⟩] := by decide

/-- Claim C1 as amended: for every invoker, every store of receivers and
every sequence of LightOnCommand and LightOffCommand commands that is
effectful from that store (each command, at the moment it executes, finds
its light in the state opposite to the one it assigns), executing the N
commands through press_button and then pressing undo N times returns the
invoker and every receiver to the state before the first execution. -/
theorem undo_roundtrip_effectful (cs : List Command) (r : SimpleRemoteControl)
    (s : Store) (h : effectful s cs = true) :
    pressUndoN cs.length (pressButtons r cs s).1 (pressButtons r cs s).2 =
      (r, s) := by
  induction cs generalizing r s with
  | nil => simp [pressButtons, pressUndoN]
  | cons c cs ih =>
    cases hc : Command.target? c with
    | none => simp [effectful, hc] at h
    | some ib =>
      obtain ⟨i, b⟩ := ib
      simp only [effectful, hc, Bool.and_eq_true, decide_eq_true_eq] at h
      obtain ⟨h1, h2⟩ := h
      simp only [List.length_cons, pressUndoN_succ_last, pressButtons,
        SimpleRemoteControl.press_button]
      rw [ih _ _ h2]
      simp only [SimpleRemoteControl.press_undo, List.getLast?_concat,
        List.dropLast_concat]
      rw [target_undo_execute c i b s hc h1]

/-- Witness for undo_roundtrip_effectful: turning one light on and then
off is effectful from the off state, and two undo presses restore the
initial invoker and store. -/
theorem undo_roundtrip_effectful_witness :
    effectful [⟨"Living Room", false⟩]
        [Command.lightOnCommand 0, Command.lightOffCommand 0] = true ∧
    pressUndoN 2
        (pressButtons ⟨[]⟩ [Command.lightOnCommand 0, Command.lightOffCommand 0]
          [⟨"Living Room", false⟩]).1
        (pressButtons ⟨[]⟩ [Command.lightOnCommand 0, Command.lightOffCommand 0]
          [⟨"Living Room", false⟩]).2 =
      (⟨[]⟩, [⟨"Living Room", false⟩]) :=
  ⟨by decide,
   undo_roundtrip_effectful
     [Command.lightOnCommand 0, Command.lightOffCommand 0] ⟨[]⟩
     [⟨"Living Room", false⟩] (by decide)⟩

/-- Claim C2 fails as stated: the macro of [LightOnCommand, LightOffCommand]
on a light that is initially on executes to off and undoes to off again,
so the receiver state after execute-then-undo differs from the state
before execution. -/
theorem macroCommand_roundtrip_counterexample :
    (Command.undo
      (Command.macroCommand [Command.lightOnCommand 0, Command.lightOffCommand 0])
      (Command.execute
        (Command.macroCommand [Command.lightOnCommand 0, Command.lightOffCommand 0])
        [⟨"Living Room", true⟩]).1).1 ≠ [⟨"Living Room", true⟩] := by decide

/-- Claim C2 as amended: for every member list and every store, a
MacroCommand executes its member commands in declared list order and
undoes them in strictly reversed list order (both stated through the
sequential runner runSeq, unconditionally); and executing the macro and
then undoing it restores every receiver whenever the member sequence is
effectful from the starting store (each member command changes the state
of its light when it runs). -/
theorem macroCommand_order_and_roundtrip (cs : List Command) (s t : Store) :
    Command.execute (Command.macroCommand cs) t =
      ((runSeq Command.execute cs t).1,
       Event.executingMacro :: (runSeq Command.execute cs t).2) ∧
    Command.undo (Command.macroCommand cs) t =
      ((runSeq Command.undo cs.reverse t).1,
       Event.undoingMacro :: (runSeq Command.undo cs.reverse t).2) ∧
    (effectful s cs = true →
      (Command.undo (Command.macroCommand cs)
        (Command.execute (Command.macroCommand cs) s).1).1 = s) := by
  refine ⟨?_, ?_, fun h => ?_⟩
  · simp [Command.execute, execList_eq_runSeq]
  · simp [Command.undo, undoRevList_eq_runSeq]
  · simpa only [Command.execute, Command.undo] using undoRevList_execList cs s h

/-- Witness for macroCommand_order_and_roundtrip: the macro of one
LightOnCommand and one LightOffCommand over a light that starts off is
effectful, and execute-then-undo restores the store. -/
theorem macroCommand_order_and_roundtrip_witness :
    effectful [⟨"Living Room", false⟩]
        [Command.lightOnCommand 0, Command.lightOffCommand 0] = true ∧
    (Command.undo
      (Command.macroCommand [Command.lightOnCommand 0, Command.lightOffCommand 0])
      (Command.execute
        (Command.macroCommand [Command.lightOnCommand 0, Command.lightOffCommand 0])
        [⟨"Living Room", false⟩]).1).1 = [⟨"Living Room", false⟩] :=
  ⟨by decide,
   (macroCommand_order_and_roundtrip
     [Command.lightOnCommand 0, Command.lightOffCommand 0]
     [⟨"Living Room", false⟩] [⟨"Living Room", false⟩]).2.2 (by decide)⟩

/-- Claim C5: pressing undo with an empty history leaves the invoker and
every receiver unchanged and emits only the Nothing to undo message; no
error path exists. -/
theorem press_undo_empty_history (r : SimpleRemoteControl) (s : Store)
    (h : r.history = []) :
    SimpleRemoteControl.press_undo r s = (r, s, [Event.nothingToUndo]) := by
  simp [SimpleRemoteControl.press_undo, h]

/-- Witness for press_undo_empty_history on the freshly constructed
invoker and an empty store. -/
theorem press_undo_empty_history_witness :
    SimpleRemoteControl.press_undo ⟨[]⟩ [] = (⟨[]⟩, [], [Event.nothingToUndo]) :=
  press_undo_empty_history ⟨[]⟩ [] rfl

/-- Claim C6: press_button performs the forward operation of the command
and appends exactly that command to the history, and press_undo on a
non-empty history removes exactly the last command and runs its undo on
the current store. -/
theorem press_button_push_undo_pop (r r₂ : SimpleRemoteControl)
    (c : Command) (s s₂ : Store) (hist : List Command)
    (hr : r₂.history = hist ++ [c]) :
    SimpleRemoteControl.press_button r c s =
      ({ history := r.history ++ [c] },
       (Command.execute c s).1, (Command.execute c s).2) ∧
    SimpleRemoteControl.press_undo r₂ s₂ =
      ({ history := hist },
       (Command.undo c s₂).1,
       Event.undoing (Command.className c) :: (Command.undo c s₂).2) := by
  constructor
  · rfl
  · simp [SimpleRemoteControl.press_undo, hr, List.getLast?_concat,
      List.dropLast_concat]

/-- Witness for press_button_push_undo_pop at a concrete command,
invoker and store. -/
theorem press_button_push_undo_pop_witness :
    SimpleRemoteControl.press_button ⟨[]⟩ (Command.lightOnCommand 0)
        [⟨"Living Room", false⟩] =
      (⟨[Command.lightOnCommand 0]⟩, [⟨"Living Room", true⟩],
       [Event.turnedOn "Living Room"]) ∧
    SimpleRemoteControl.press_undo ⟨[Command.lightOnCommand 0]⟩
        [⟨"Living Room", true⟩] =
      (⟨[]⟩, [⟨"Living Room", false⟩],
       [Event.undoing "LightOnCommand", Event.turnedOff "Living Room"]) := by
  have h := press_button_push_undo_pop ⟨[]⟩ ⟨[Command.lightOnCommand 0]⟩
    (Command.lightOnCommand 0) [⟨"Living Room", false⟩]
    [⟨"Living Room", true⟩] [] rfl
  exact ⟨h.1, h.2⟩

/-- Claim C9: turn_on always leaves is_on true and turn_off always leaves
is_on false; both are idempotent and depend only on the name of the light,
never on its previous state; accordingly the undo of LightOnCommand is the
absolute assignment turn_off and the undo of LightOffCommand is the
absolute assignment turn_on. -/
theorem light_ops_absolute (l l₂ : Light) (i : Nat) (s : Store)
    (h : l.name = l₂.name) :
    (Light.turn_on l).1.is_on = true ∧
    (Light.turn_off l).1.is_on = false ∧
    Light.turn_on (Light.turn_on l).1 = Light.turn_on l ∧
    Light.turn_off (Light.turn_off l).1 = Light.turn_off l ∧
    Light.turn_on l = Light.turn_on l₂ ∧
    Light.turn_off l = Light.turn_off l₂ ∧
    Command.undo (Command.lightOnCommand i) s = applyAt s i Light.turn_off ∧
    Command.undo (Command.lightOffCommand i) s = applyAt s i Light.turn_on := by
  refine ⟨rfl, rfl, rfl, rfl, ?_, ?_, rfl, rfl⟩
  · simp [Light.turn_on, h]
  · simp [Light.turn_off, h]

/-- Witness for light_ops_absolute: two lights with the same name but
opposite current states. -/
theorem light_ops_absolute_witness :
    Light.turn_on ⟨"Kitchen", true⟩ = Light.turn_on ⟨"Kitchen", false⟩ ∧
    Light.turn_off ⟨"Kitchen", true⟩ = Light.turn_off ⟨"Kitchen", false⟩ :=
  ⟨(light_ops_absolute ⟨"Kitchen", true⟩ ⟨"Kitchen", false⟩ 0 [] rfl).2.2.2.2.1,
   (light_ops_absolute ⟨"Kitchen", true⟩ ⟨"Kitchen", false⟩ 0 [] rfl).2.2.2.2.2.1⟩

/-- The four concrete subclasses of SupportHandler in
chain_of_responsibility_demo.py. The classes differ only in the level
bound they accept and the message they print. -/
inductive HandlerKind where
  | juniorSupport
  | seniorSupport
  | technicalLead
  | manager
  deriving DecidableEq, Repr

/-- The acceptance bound of each concrete handler: the guard is
level <= bound in its handle method. -/
def HandlerKind.threshold : HandlerKind → Nat
  | .juniorSupport => 1
  | .seniorSupport => 2
  | .technicalLead => 3
  | .manager => 4

/-- The handle method over a chain of handlers, the chain given as the
list of handlers reachable through the _next_handler links. A concrete
handler accepts when level <= its threshold and returns True; otherwise
it calls the base class handle, which delegates to the next handler when
one exists and prints the could-not-be-handled message and returns False
at the end of the chain. Besides the boolean result the model returns the
handlers whose handle method ran, in invocation order; no handler
attribute is ever written during handling. -/
def handle : List HandlerKind → String → Nat → Bool × List HandlerKind
  | [], _, _ => (false, [])
  | h :: rest, request, level =>
    if level ≤ h.threshold then (true, [h])
    else ((handle rest request level).1, h :: (handle rest request level).2)

/-- The largest level any handler of the chain accepts. -/
def maxThreshold : List HandlerKind → Nat
  | [] => 0
  | h :: rest => max h.threshold (maxThreshold rest)

/-- The chain built in run_demo:
junior.set_next(senior).set_next(lead).set_next(manager). -/
def demoChain : List HandlerKind :=
  [HandlerKind.juniorSupport, HandlerKind.seniorSupport,
   HandlerKind.technicalLead, HandlerKind.manager]

/-- Claim C3: a request whose level exceeds every threshold of the chain
is delegated through all handlers, none accepts, and handle returns False
rather than raising; the handlers, which hold no state besides their
_next_handler link, are left exactly as they were (the trace lists every
handler unchanged and handling writes no attribute). -/
theorem handle_above_max_unhandled (chain : List HandlerKind)
    (request : String) (level : Nat) (h : maxThreshold chain < level) :
    handle chain request level = (false, chain) := by
  induction chain with
  | nil => rfl
  | cons c rest ih =>
    simp only [maxThreshold, Nat.max_lt] at h
    simp [handle, Nat.not_le.mpr h.1, ih h.2]

/-- Witness for handle_above_max_unhandled: the demo chain and the
level 10 request of run_demo. -/
theorem handle_above_max_unhandled_witness :
    maxThreshold demoChain < 10 ∧
    handle demoChain "Company acquisition" 10 = (false, demoChain) :=
  ⟨by decide, handle_above_max_unhandled demoChain "Company acquisition" 10 (by decide)⟩

/-- Claim C4: for a request whose level is below the maximum level the
chain handles, there is a position i such that handle returns True, the
handlers that ran are exactly the first i+1 of the chain (propagation
stops at the acceptor and later handlers are never invoked), the handler
at i accepts the level, and every earlier handler rejects it, so the
first matching handler in chain order wins. -/
theorem handle_first_match_wins (chain : List HandlerKind)
    (request : String) (level : Nat) (h : level < maxThreshold chain) :
    ∃ i, handle chain request level = (true, chain.take (i + 1)) ∧
      (∃ k, chain[i]? = some k ∧ level ≤ k.threshold) ∧
      ∀ j k₂, j < i → chain[j]? = some k₂ → k₂.threshold < level := by
  induction chain with
  | nil => simp [maxThreshold] at h
  | cons c rest ih =>
    by_cases hc : level ≤ c.threshold
    · refine ⟨0, ?_, ⟨c, by simp, hc⟩, ?_⟩
      · simp [handle, hc]
      · intro j k₂ hj
        omega
    · have hrest : level < maxThreshold rest := by
        simp only [maxThreshold, lt_max_iff] at h
        rcases h with h | h
        · omega
        · exact h
      obtain ⟨i, hhandle, ⟨k, hk, hlev⟩, hbefore⟩ := ih hrest
      refine ⟨i + 1, ?_, ⟨k, by simpa using hk, hlev⟩, ?_⟩
      · simp [handle, hc, hhandle]
      · intro j k₂ hj hget
        cases j with
        | zero =>
          simp at hget
          subst hget
          omega
        | succ j =>
          exact hbefore j k₂ (by omega) (by simpa using hget)

/-- Witness for handle_first_match_wins: the level 2 request of run_demo
on the demo chain; the accepting position is the second handler. -/
theorem handle_first_match_wins_witness :
    2 < maxThreshold demoChain ∧
    ∃ i, handle demoChain "Advanced configuration" 2 =
        (true, demoChain.take (i + 1)) ∧
      (∃ k, demoChain[i]? = some k ∧ 2 ≤ k.threshold) ∧
      ∀ j k₂, j < i → demoChain[j]? = some k₂ → k₂.threshold < 2 :=
  ⟨by decide, handle_first_match_wins demoChain "Advanced configuration" 2 (by decide)⟩

/-- Claim C7: on the run_demo chain of levels [1,2,3,4], the level 2
request is accepted by the second handler, SeniorSupport, with result
True (the handlers that ran are exactly the first two), and the level 10
request is accepted by nobody with result False. -/
theorem demo_requests_outcomes :
    handle demoChain "Advanced configuration" 2 =
      (true, [HandlerKind.juniorSupport, HandlerKind.seniorSupport]) ∧
    demoChain[1]? = some HandlerKind.seniorSupport ∧
    handle demoChain "Company acquisition" 10 = (false, demoChain) := by
  refine ⟨by decide, by decide, by decide⟩

/-- A handler object in the pointer model used for the chain shape
claims: its class and its _next_handler attribute, either a reference (an
index into the heap of handler objects) or none. -/
structure HandlerNode where
  kind : HandlerKind
  next : Option Nat
  deriving DecidableEq, Repr

/-- The handler objects a run has created; a reference is an index. -/
abbrev HandlerHeap := List HandlerNode

/-- SupportHandler.__init__: a fresh handler whose _next_handler is None. -/
def newHandler (k : HandlerKind) : HandlerNode := ⟨k, none⟩

/-- SupportHandler.set_next: store a reference to handler j in the
_next_handler attribute of handler i. The Python method also returns j to
allow call chaining, which does not affect the heap. -/
def set_next : HandlerHeap → Nat → Nat → HandlerHeap
  | [], _, _ => []
  | n :: ns, 0, j => { n with next := some j } :: ns
  | n :: ns, i + 1, j => n :: set_next ns i j

/-- Follow the _next_handler links from position i for at most fuel
steps; true when a position holding no handler, or a handler with no
successor, is reached. -/
def walkTerminates (heap : HandlerHeap) : Nat → Nat → Bool
  | 0, i => (heap[i]?.bind HandlerNode.next).isNone
  | fuel + 1, i =>
    match heap[i]?.bind HandlerNode.next with
    | none => true
    | some j => walkTerminates heap fuel j

/-- The chain structure of a heap is acyclic when, from every handler,
following the _next_handler links reaches a handler with no successor
within as many steps as there are handlers, so that no handler is ever
revisited. -/
def acyclicChain (heap : HandlerHeap) : Bool :=
  (List.range heap.length).all fun i => walkTerminates heap heap.length i

/-- Every stored _next_handler reference points to a strictly later heap
position, as happens when set_next always links to a newer handler. -/
def monotoneNext (heap : HandlerHeap) : Bool :=
  (List.range heap.length).all fun i =>
    match heap[i]?.bind HandlerNode.next with
    | none => true
    | some j => decide (i < j)

/-- The pointer heap of run_demo: four fresh handlers linked by
junior.set_next(senior).set_next(lead).set_next(manager). -/
def demoHeap : HandlerHeap :=
  set_next (set_next (set_next
    [newHandler HandlerKind.juniorSupport, newHandler HandlerKind.seniorSupport,
     newHandler HandlerKind.technicalLead, newHandler HandlerKind.manager]
    0 1) 1 2) 2 3

/-- Claim C8 fails as stated: set_next accepts any handler as successor,
and linking a single fresh JuniorSupport handler to itself produces a
chain in which the walk from that handler never reaches a successor-less
handler. -/
theorem set_next_cycle_counterexample :
    acyclicChain (set_next [newHandler HandlerKind.juniorSupport] 0 0) = false := by
  decide

theorem monotoneNext_spec (heap : HandlerHeap) (h : monotoneNext heap = true)
    (i j : Nat) (hj : heap[i]?.bind HandlerNode.next = some j) : i < j := by
  have hi : i < heap.length := by
    cases hget : heap[i]? with
    | none => rw [hget] at hj; simp at hj
    | some n =>
      by_contra hlen
      rw [List.getElem?_eq_none (by omega)] at hget
      exact Option.noConfusion hget
  have hall := List.all_eq_true.mp h i (List.mem_range.mpr hi)
  rw [hj] at hall
  exact of_decide_eq_true hall

/-- Claim C8 as amended: set_next by itself does not rule out cycles, but
every heap whose _next_handler references all point to strictly later
handlers, as in the run_demo chain where each set_next call links a
handler to a later-created one, is acyclic: from every handler the walk
along the _next_handler links reaches a handler with no successor within
heap-many steps, revisiting none. -/
theorem monotone_chain_acyclic (heap : HandlerHeap)
    (h : monotoneNext heap = true) : acyclicChain heap = true := by
  have key : ∀ (fuel i : Nat), heap.length ≤ i + fuel →
      walkTerminates heap fuel i = true := by
    intro fuel
    induction fuel with
    | zero =>
      intro i hi
      have hnone : heap[i]? = none := List.getElem?_eq_none (by omega)
      simp [walkTerminates, hnone]
    | succ fuel ih =>
      intro i hi
      simp only [walkTerminates]
      cases hj : heap[i]?.bind HandlerNode.next with
      | none => rfl
      | some j =>
        have hij := monotoneNext_spec heap h i j hj
        exact ih j (by omega)
  rw [acyclicChain, List.all_eq_true]
  intro i hi
  exact key heap.length i (by omega)

/-- Witness for monotone_chain_acyclic: the run_demo heap satisfies the
monotone successor condition and its chain is acyclic. -/
theorem monotone_chain_acyclic_witness :
    monotoneNext demoHeap = true ∧ acyclicChain demoHeap = true :=
  ⟨by decide, monotone_chain_acyclic demoHeap (by decide)⟩

/-- The Logger singleton of singleton_pattern_demo.py: __init__ sets name
from the constructor argument and logs to the empty list, printing the
initialized message. -/
structure Logger where
  name : String
  logs : List String
  deriving DecidableEq, Repr

/-- Logger.__init__ run on a fresh instance with the given name argument. -/
def Logger.init (name : String) : Logger := { name := name, logs := [] }

/-- The _instances mapping of SingletonMeta, restricted to the one class
(Logger) the claims are about: the stored instance, when one exists. -/
structure SingletonMeta where
  instances : Option Logger
  deriving DecidableEq, Repr

/-- SingletonMeta.__call__ for Logger(name): when no instance is stored,
construct one (running __init__) and store it; otherwise return the
stored instance untouched. The boolean records whether __init__ ran on
this call. -/
def SingletonMeta.call (st : SingletonMeta) (name : String) :
    SingletonMeta × Logger × Bool :=
  match st.instances with
  | some inst => (st, inst, false)
  | none => (⟨some (Logger.init name)⟩, Logger.init name, true)

/-- A sequence of constructor calls Logger(a), one per listed argument,
returning the final metaclass state and, per call, the returned instance
and whether __init__ ran. -/
def callSeq (st : SingletonMeta) : List String → SingletonMeta × List (Logger × Bool)
  | [] => (st, [])
  | a :: as =>
      ((callSeq (SingletonMeta.call st a).1 as).1,
       (SingletonMeta.call st a).2 :: (callSeq (SingletonMeta.call st a).1 as).2)

theorem callSeq_stored (L : Logger) (as : List String) :
    callSeq ⟨some L⟩ as = (⟨some L⟩, as.map fun _ => (L, false)) := by
  induction as with
  | nil => rfl
  | cons a as ih => simp [callSeq, SingletonMeta.call, ih]

/-- Claim C10: starting from an empty _instances mapping, the first call
Logger(a) runs __init__ exactly once, and every later call, whatever its
argument, returns exactly the instance created by the first call, with
__init__ not run again and the name and logs fields untouched by the
later arguments. -/
theorem singleton_calls_share_instance (a : String) (args : List String) :
    callSeq ⟨none⟩ (a :: args) =
      (⟨some (Logger.init a)⟩,
       (Logger.init a, true) :: args.map fun _ => (Logger.init a, false)) := by
  simp [callSeq, SingletonMeta.call, callSeq_stored]
